import Mathlib

/-! Verification of the Portfolio Aggregation Engine (KellyMultiplexer).

Shallow embedding of `src/multiplexer/src/logic/KellyMultiplexer.cpp` and the
admin command dispatch of `src/multiplexer/src/io/ZmqAdminListener.cpp`.

Modelling conventions:
* C++ `double` is modelled as `ℚ` (exact real-valued arithmetic for the
  decimal literals appearing in the code; IEEE-754 rounding is out of scope).
* `std::map<K, V>` is modelled as an association list `List (K × V)` with
  first-match lookup; `map[k] = v` is `upsertA`, `map.erase(k)` is `eraseA`,
  and `map[k] += w` on the aggregate is `addWeight`.  The engine never creates
  duplicate keys, so first-match semantics coincides with `std::map`.
* The mutex-guarded mutable object `KellyMultiplexer` is modelled as a state
  record; each member function is a pure state transformer (the lock makes
  each call atomic, so sequential state passing is the faithful semantics).
-/

/-- An instrument key, following `Portfolio.hpp` (`type`, `data.symbol`,
`data.exchange`); map-key equality is componentwise. -/
structure Instrument where
  type : String
  symbol : String
  exchange : String
deriving DecidableEq

/-- Structure `StrategyParams` from `ClientConfig.hpp`: annualized expected return and
volatility. -/
structure StrategyParams where
  mu : ℚ
  sigma : ℚ
deriving DecidableEq

/-- Structure `MultiplexerConfig` from `ClientConfig.hpp`. -/
structure MultiplexerConfig where
  kelly_fraction : ℚ
deriving DecidableEq

/-- Structure `TargetPortfolio`: an owner id and a weight map `Instrument → double`. -/
structure TargetPortfolio where
  multiplexer_id : String := ""
  target_weights : List (Instrument × ℚ) := []
deriving DecidableEq

/-- First-match lookup, modelling `std::map::find`. -/
def lookupA {α : Type} [DecidableEq α] {β : Type} : List (α × β) → α → Option β
  | [], _ => none
  | e :: t, key => if e.1 = key then some e.2 else lookupA t key

/-- Insert-or-replace, modelling `map[k] = v`. -/
def upsertA {α : Type} [DecidableEq α] {β : Type} : List (α × β) → α → β → List (α × β)
  | [], key, val => [(key, val)]
  | e :: t, key, val => if e.1 = key then (key, val) :: t else e :: upsertA t key val

/-- Key deletion, modelling `map.erase(k)`. -/
def eraseA {α : Type} [DecidableEq α] {β : Type} : List (α × β) → α → List (α × β)
  | [], _ => []
  | e :: t, key => if e.1 = key then eraseA t key else e :: eraseA t key

/-- Accumulation `aggregated.target_weights[instrument] += w`:
`operator[]` default-constructs `0.0` on a miss, then `+=` adds `w`. -/
def addWeight : List (Instrument × ℚ) → Instrument → ℚ → List (Instrument × ℚ)
  | [], inst, w => [(inst, w)]
  | e :: t, inst, w => if e.1 = inst then (e.1, e.2 + w) :: t else e :: addWeight t inst w

/-- The weight an aggregate map assigns to an instrument (`0` when absent,
matching the `+=`-accumulator semantics of the C++ map). -/
def weightOf (agg : List (Instrument × ℚ)) (inst : Instrument) : ℚ :=
  (lookupA agg inst).getD 0

/-- The engine state: `registry_`, `config_` and `client_portfolios_` of class
`KellyMultiplexer` (the `ClientRegistry` wrapper struct is inlined to its
single `clients` map field). -/
structure KellyMultiplexer where
  registry : List (String × StrategyParams)
  config : MultiplexerConfig
  client_portfolios : List (String × TargetPortfolio)
deriving DecidableEq

namespace KellyMultiplexer

/-- The auto-registration default built in `recalculate_and_publish`:
`mu = 0.05`, `sigma = 0.20`. -/
def default_params : StrategyParams := { mu := 0.05, sigma := 0.20 }

/-- The raw Kelly fraction: `0` unless `sigma > 1e-6`, else `mu / sigma²`. -/
def raw_kelly (params : StrategyParams) : ℚ :=
  if params.sigma > 1e-6 then params.mu / (params.sigma * params.sigma) else 0

/-- The per-client scalar: `kelly_fraction * raw_kelly`, then the two
sequential clamping `if`s of the C++ code. -/
def kelly_scalar (config : MultiplexerConfig) (params : StrategyParams) : ℚ :=
  let scalar := config.kelly_fraction * raw_kelly params
  let scalar1 := if scalar > 2 then 2 else scalar
  if scalar1 < -2 then -2 else scalar1

/-- The inner instrument loop: scale each of the client's weights by `scalar`
and accumulate into the running aggregate. -/
def scale_weights (scalar : ℚ) (weights : List (Instrument × ℚ))
    (agg : List (Instrument × ℚ)) : List (Instrument × ℚ) :=
  weights.foldl (fun a iw => addWeight a iw.1 (iw.2 * scalar)) agg

/-- One iteration of the client loop of `recalculate_and_publish`: look up the
client (auto-registering `default_params` on a miss), then accumulate its
scaled weights.  The accumulator carries the (possibly mutated) registry and
the aggregate weight map. -/
def recalc_step (config : MultiplexerConfig)
    (acc : List (String × StrategyParams) × List (Instrument × ℚ))
    (entry : String × TargetPortfolio) :
    List (String × StrategyParams) × List (Instrument × ℚ) :=
  match lookupA acc.1 entry.1 with
  | some params =>
      (acc.1, scale_weights (kelly_scalar config params) entry.2.target_weights acc.2)
  | none =>
      (upsertA acc.1 entry.1 default_params,
       scale_weights (kelly_scalar config default_params) entry.2.target_weights acc.2)

/-- Method `KellyMultiplexer::recalculate_and_publish`: on an empty portfolio store it
returns `{}` (default `TargetPortfolio`: empty id, no weights); otherwise it
folds `recalc_step` over all stored portfolios and returns the updated state
together with the aggregate labelled `KellyMux_Aggregated`. -/
def recalculate_and_publish (m : KellyMultiplexer) : KellyMultiplexer × TargetPortfolio :=
  if m.client_portfolios = [] then (m, {})
  else
    let r := m.client_portfolios.foldl (recalc_step m.config) (m.registry, [])
    ({ m with registry := r.1 },
     { multiplexer_id := "KellyMux_Aggregated", target_weights := r.2 })

/-- Method `KellyMultiplexer::on_portfolio_received`: store the portfolio under its
`multiplexer_id`, then recalculate. -/
def on_portfolio_received (m : KellyMultiplexer) (p : TargetPortfolio) :
    KellyMultiplexer × TargetPortfolio :=
  recalculate_and_publish
    { m with client_portfolios := upsertA m.client_portfolios p.multiplexer_id p }

/-- Method `KellyMultiplexer::add_client`: upsert the registry entry.  The C++ method
returns `void` and calls no recompute and no publisher (cf. the source comment
"We don't recalculate immediately"), hence the return type is just the state. -/
def add_client (m : KellyMultiplexer) (id : String) (mu sigma : ℚ) : KellyMultiplexer :=
  { m with registry := upsertA m.registry id { mu := mu, sigma := sigma } }

/-- Method `KellyMultiplexer::remove_client`: erase the client from the registry and
from the portfolio store. -/
def remove_client (m : KellyMultiplexer) (id : String) : KellyMultiplexer :=
  { m with registry := eraseA m.registry id,
           client_portfolios := eraseA m.client_portfolios id }

/-- The risk parameters the recompute loop uses for client `c`: the registered
entry, or `default_params` when unregistered. -/
def paramsOf (registry : List (String × StrategyParams)) (c : String) : StrategyParams :=
  (lookupA registry c).getD default_params

end KellyMultiplexer

/-- The roster/store consistency invariant: every client id holding an entry
in the portfolio store also has an entry in the client registry. -/
def RegistryCovers (m : KellyMultiplexer) : Prop :=
  ∀ c : String, lookupA m.client_portfolios c ≠ none → lookupA m.registry c ≠ none

/-! ## Admin command dispatch (`ZmqAdminListener::listen_loop`) -/

/-- One parsed admin JSON request.  Each field is `none` when the key is
absent from the JSON object (`j_req.value("cmd", "")` defaults a missing
`cmd` to `""`; `j_req.at(...)` on a missing key throws, modelled below). -/
structure AdminRequest where
  cmdField : Option String
  idField : Option String
  muField : Option ℚ
  sigmaField : Option ℚ

/-- The reply object `{"status": ..., "msg": ...}` sent back on the REP
socket: `status` is `OK` or `ERROR`, carrying the `msg` string. -/
inductive AdminResponse where
  | ok (msg : String)
  | error (msg : String)
deriving DecidableEq

/-- The message carried by the `out_of_range` exception that
`nlohmann::json::at` throws for a missing key `k` (caught by the listener and
copied verbatim into the `ERROR` reply); the exact wording is a library
detail, modelled as this fixed sentence naming the key. -/
def missing_key_msg (k : String) : String := "key " ++ k ++ " not found"

/-- One iteration of `ZmqAdminListener::listen_loop` on a parsed request:
dispatch on `cmd` (`ADD`/`UPDATE`/`REMOVE`, anything else answers
`Unknown command`), extracting `id`/`mu`/`sigma` in the order the C++ code
does; the first missing key aborts the handler before any engine call (the
catch block turns it into an `ERROR` reply), so the engine state is returned
unchanged on every failure path. -/
def handle_admin (m : KellyMultiplexer) (req : AdminRequest) :
    KellyMultiplexer × AdminResponse :=
  let cmd := req.cmdField.getD ""
  if cmd = "ADD" ∨ cmd = "UPDATE" then
    match req.idField with
    | none => (m, .error (missing_key_msg "id"))
    | some id =>
      match req.muField with
      | none => (m, .error (missing_key_msg "mu"))
      | some mu =>
        match req.sigmaField with
        | none => (m, .error (missing_key_msg "sigma"))
        | some sigma => (m.add_client id mu sigma, .ok "Client updated")
  else if cmd = "REMOVE" then
    match req.idField with
    | none => (m, .error (missing_key_msg "id"))
    | some id => (m.remove_client id, .ok "Client removed")
  else (m, .error "Unknown command")

/-- Returns `true` when the second character list starts the first. -/
def charsStartWith : List Char → List Char → Bool
  | _, [] => true
  | [], _ :: _ => false
  | a :: s, b :: t => a == b && charsStartWith s t

/-- Returns `true` when the second character list occurs contiguously inside the
first (used to state that an error message does or does not mention a given
command name). -/
def charsContain : List Char → List Char → Bool
  | [], needle => needle.isEmpty
  | a :: t, needle => charsStartWith (a :: t) needle || charsContain t needle

/-! ## Association-list lemmas -/

theorem lookupA_upsertA_self {α : Type} [DecidableEq α] {β : Type}
    (l : List (α × β)) (k : α) (v : β) : lookupA (upsertA l k v) k = some v := by
  induction l with
  | nil => simp [lookupA, upsertA]
  | cons e t ih =>
    by_cases h : e.1 = k
    · simp [lookupA, upsertA, h]
    · simp [lookupA, upsertA, h, ih]

theorem lookupA_upsertA_ne {α : Type} [DecidableEq α] {β : Type}
    (l : List (α × β)) (k k' : α) (v : β) (hne : k' ≠ k) :
    lookupA (upsertA l k v) k' = lookupA l k' := by
  have hk : ¬k = k' := fun hx => hne hx.symm
  induction l with
  | nil => simp [lookupA, upsertA, hk]
  | cons e t ih =>
    by_cases h : e.1 = k
    · simp [lookupA, upsertA, h, hk]
    · simp only [upsertA, if_neg h, lookupA]
      by_cases h' : e.1 = k'
      · simp [h']
      · simp [h', ih]

theorem upsertA_idem {α : Type} [DecidableEq α] {β : Type}
    (l : List (α × β)) (k : α) (v : β) :
    upsertA (upsertA l k v) k v = upsertA l k v := by
  induction l with
  | nil => simp [upsertA]
  | cons e t ih =>
    by_cases h : e.1 = k
    · simp [upsertA, h]
    · simp [upsertA, h, ih]

theorem upsertA_eq_self {α : Type} [DecidableEq α] {β : Type}
    (l : List (α × β)) (k : α) (v : β) (h : lookupA l k = some v) :
    upsertA l k v = l := by
  induction l with
  | nil => simp [lookupA] at h
  | cons e t ih =>
    by_cases he : e.1 = k
    · simp only [lookupA, if_pos he, Option.some.injEq] at h
      simp only [upsertA, if_pos he]
      rw [← he, ← h]
    · simp only [lookupA, if_neg he] at h
      simp [upsertA, he, ih h]

theorem upsertA_ne_nil {α : Type} [DecidableEq α] {β : Type}
    (l : List (α × β)) (k : α) (v : β) : upsertA l k v ≠ [] := by
  cases l with
  | nil => simp [upsertA]
  | cons e t =>
    by_cases h : e.1 = k <;> simp [upsertA, h]

theorem lookupA_eraseA_self {α : Type} [DecidableEq α] {β : Type}
    (l : List (α × β)) (k : α) : lookupA (eraseA l k) k = none := by
  induction l with
  | nil => simp [lookupA, eraseA]
  | cons e t ih =>
    by_cases h : e.1 = k
    · simp [eraseA, h, ih]
    · simp [eraseA, h, lookupA, ih]

theorem lookupA_eraseA_ne {α : Type} [DecidableEq α] {β : Type}
    (l : List (α × β)) (k k' : α) (hne : k' ≠ k) :
    lookupA (eraseA l k) k' = lookupA l k' := by
  induction l with
  | nil => simp [eraseA]
  | cons e t ih =>
    have hk : ¬k = k' := fun hx => hne hx.symm
    by_cases h : e.1 = k
    · simp [eraseA, h, lookupA, hk, ih]
    · simp only [eraseA, if_neg h, lookupA]
      by_cases h' : e.1 = k'
      · simp [h']
      · simp [h', ih]

theorem lookupA_ne_none_iff_mem {α : Type} [DecidableEq α] {β : Type}
    (l : List (α × β)) (k : α) :
    lookupA l k ≠ none ↔ k ∈ l.map Prod.fst := by
  induction l with
  | nil => simp [lookupA]
  | cons e t ih =>
    simp only [List.map_cons, List.mem_cons]
    by_cases h : e.1 = k
    · simp [lookupA, h]
    · rw [lookupA, if_neg h, ih]
      constructor
      · intro hm
        exact Or.inr hm
      · rintro (hk | hm)
        · exact absurd hk.symm h
        · exact hm

theorem mem_keys_upsertA {α : Type} [DecidableEq α] {β : Type}
    (l : List (α × β)) (k : α) (v : β) : k ∈ (upsertA l k v).map Prod.fst := by
  rw [← lookupA_ne_none_iff_mem]
  simp [lookupA_upsertA_self]

/-! ## Aggregate-weight lemmas -/

theorem weightOf_addWeight_zero (agg : List (Instrument × ℚ)) (i j : Instrument) :
    weightOf (addWeight agg i 0) j = weightOf agg j := by
  induction agg with
  | nil =>
    by_cases h : i = j
    · simp [addWeight, weightOf, lookupA, h]
    · simp [addWeight, weightOf, lookupA, h]
  | cons e t ih =>
    by_cases h : e.1 = i
    · by_cases h' : e.1 = j
      · have hij : i = j := h.symm.trans h'
        simp [addWeight, weightOf, lookupA, h, hij]
      · have hij : ¬i = j := fun hx => h' (h.trans hx)
        simp [addWeight, weightOf, lookupA, h, h', hij]
    · simp only [addWeight, if_neg h, weightOf, lookupA]
      by_cases h' : e.1 = j
      · simp [h']
      · simpa [h', weightOf] using ih

namespace KellyMultiplexer

theorem weightOf_scale_weights_zero (weights : List (Instrument × ℚ))
    (agg : List (Instrument × ℚ)) (j : Instrument) :
    weightOf (scale_weights 0 weights agg) j = weightOf agg j := by
  induction weights generalizing agg with
  | nil => simp [scale_weights]
  | cons iw t ih =>
    have step : scale_weights 0 (iw :: t) agg
        = scale_weights 0 t (addWeight agg iw.1 (iw.2 * 0)) := by
      simp [scale_weights]
    rw [step, mul_zero, ih, weightOf_addWeight_zero]

/-! ## Kelly-scalar lemmas -/

theorem kelly_scalar_le (config : MultiplexerConfig) (params : StrategyParams) :
    -2 ≤ kelly_scalar config params ∧ kelly_scalar config params ≤ 2 := by
  unfold kelly_scalar
  set s := config.kelly_fraction * raw_kelly params with hs
  by_cases h1 : s > 2
  · simp only [if_pos h1]
    norm_num
  · simp only [if_neg h1]
    by_cases h2 : s < -2
    · simp only [if_pos h2]
      norm_num
    · simp only [if_neg h2]
      push_neg at h1 h2
      exact ⟨h2, h1⟩

theorem raw_kelly_eq_zero (params : StrategyParams) (h : params.sigma ≤ 1e-6) :
    raw_kelly params = 0 := by
  unfold raw_kelly
  rw [if_neg (not_lt.mpr h)]

theorem kelly_scalar_eq_zero (config : MultiplexerConfig) (params : StrategyParams)
    (h : params.sigma ≤ 1e-6) : kelly_scalar config params = 0 := by
  unfold kelly_scalar
  rw [raw_kelly_eq_zero params h, mul_zero]
  norm_num

/-! ## Recompute-fold lemmas -/

theorem recalc_step_snd (config : MultiplexerConfig)
    (acc : List (String × StrategyParams) × List (Instrument × ℚ))
    (entry : String × TargetPortfolio) :
    (recalc_step config acc entry).2
      = scale_weights (kelly_scalar config (paramsOf acc.1 entry.1))
          entry.2.target_weights acc.2 := by
  cases h : lookupA acc.1 entry.1 <;> simp [recalc_step, paramsOf, h]

theorem paramsOf_recalc_step (config : MultiplexerConfig)
    (acc : List (String × StrategyParams) × List (Instrument × ℚ))
    (entry : String × TargetPortfolio) (c : String) :
    paramsOf (recalc_step config acc entry).1 c = paramsOf acc.1 c := by
  cases h : lookupA acc.1 entry.1 with
  | some params => simp [recalc_step, h]
  | none =>
    simp only [recalc_step, h]
    by_cases hc : c = entry.1
    · simp [paramsOf, hc, h, lookupA_upsertA_self]
    · rw [paramsOf, lookupA_upsertA_ne _ _ _ _ hc, paramsOf]

theorem paramsOf_recalc_fold (config : MultiplexerConfig)
    (ps : List (String × TargetPortfolio))
    (acc : List (String × StrategyParams) × List (Instrument × ℚ)) (c : String) :
    paramsOf (ps.foldl (recalc_step config) acc).1 c = paramsOf acc.1 c := by
  induction ps generalizing acc with
  | nil => rfl
  | cons e t ih =>
    rw [List.foldl_cons, ih, paramsOf_recalc_step]

theorem lookupA_recalc_step_of_some (config : MultiplexerConfig)
    (acc : List (String × StrategyParams) × List (Instrument × ℚ))
    (entry : String × TargetPortfolio) (c : String) (v : StrategyParams)
    (h : lookupA acc.1 c = some v) :
    lookupA (recalc_step config acc entry).1 c = some v := by
  cases he : lookupA acc.1 entry.1 with
  | some params => simpa [recalc_step, he] using h
  | none =>
    have hc : c ≠ entry.1 := by
      intro hx
      rw [hx, he] at h
      exact Option.noConfusion h
    simp only [recalc_step, he]
    rw [lookupA_upsertA_ne _ _ _ _ hc]
    exact h

theorem lookupA_recalc_fold_of_some (config : MultiplexerConfig)
    (ps : List (String × TargetPortfolio))
    (acc : List (String × StrategyParams) × List (Instrument × ℚ)) (c : String)
    (v : StrategyParams) (h : lookupA acc.1 c = some v) :
    lookupA (ps.foldl (recalc_step config) acc).1 c = some v := by
  induction ps generalizing acc with
  | nil => exact h
  | cons e t ih =>
    rw [List.foldl_cons]
    exact ih _ (lookupA_recalc_step_of_some config acc e c v h)

theorem lookupA_recalc_fold_of_mem (config : MultiplexerConfig)
    (ps : List (String × TargetPortfolio))
    (acc : List (String × StrategyParams) × List (Instrument × ℚ)) (c : String)
    (h : c ∈ ps.map Prod.fst) :
    lookupA (ps.foldl (recalc_step config) acc).1 c ≠ none := by
  induction ps generalizing acc with
  | nil => simp at h
  | cons e t ih =>
    rw [List.map_cons, List.mem_cons] at h
    rw [List.foldl_cons]
    rcases h with hc | hm
    · have hsome : lookupA (recalc_step config acc e).1 c ≠ none := by
        cases he : lookupA acc.1 e.1 with
        | some params =>
          rw [hc] at *
          simp [recalc_step, he]
        | none =>
          simp only [recalc_step, he]
          rw [hc, lookupA_upsertA_self]
          exact Option.noConfusion
      rcases Option.ne_none_iff_exists.mp hsome with ⟨v, hv⟩
      rw [lookupA_recalc_fold_of_some config t _ c v hv.symm]
      exact Option.noConfusion
    · exact ih _ hm

theorem recalc_fold_registry_eq (config : MultiplexerConfig)
    (ps : List (String × TargetPortfolio))
    (acc : List (String × StrategyParams) × List (Instrument × ℚ))
    (h : ∀ e ∈ ps, lookupA acc.1 e.1 ≠ none) :
    (ps.foldl (recalc_step config) acc).1 = acc.1 := by
  induction ps generalizing acc with
  | nil => rfl
  | cons e t ih =>
    rcases Option.ne_none_iff_exists.mp (h e (List.mem_cons_self e t)) with ⟨v, hv⟩
    have hstep : recalc_step config acc e
        = (acc.1, scale_weights (kelly_scalar config v) e.2.target_weights acc.2) := by
      simp [recalc_step, hv.symm]
    rw [List.foldl_cons, hstep]
    exact ih _ (fun x hx => h x (List.mem_cons_of_mem e hx))

theorem recalc_fold_agg_congr (config : MultiplexerConfig)
    (ps : List (String × TargetPortfolio))
    (acc1 acc2 : List (String × StrategyParams) × List (Instrument × ℚ))
    (h : ∀ c, paramsOf acc1.1 c = paramsOf acc2.1 c) (hagg : acc1.2 = acc2.2) :
    (ps.foldl (recalc_step config) acc1).2 = (ps.foldl (recalc_step config) acc2).2 := by
  induction ps generalizing acc1 acc2 with
  | nil => exact hagg
  | cons e t ih =>
    rw [List.foldl_cons, List.foldl_cons]
    refine ih _ _ (fun c => ?_) ?_
    · rw [paramsOf_recalc_step, paramsOf_recalc_step]
      exact h c
    · rw [recalc_step_snd, recalc_step_snd, h e.1, hagg]

end KellyMultiplexer

/-! ## Normal form of `on_portfolio_received` -/

open KellyMultiplexer in
theorem on_portfolio_received_eq (m : KellyMultiplexer) (p : TargetPortfolio) :
    on_portfolio_received m p
      = ({ registry := ((upsertA m.client_portfolios p.multiplexer_id p).foldl
             (recalc_step m.config) (m.registry, [])).1,
           config := m.config,
           client_portfolios := upsertA m.client_portfolios p.multiplexer_id p },
         { multiplexer_id := "KellyMux_Aggregated",
           target_weights := ((upsertA m.client_portfolios p.multiplexer_id p).foldl
             (recalc_step m.config) (m.registry, [])).2 }) := by
  simp only [on_portfolio_received, recalculate_and_publish]
  rw [if_neg (upsertA_ne_nil m.client_portfolios p.multiplexer_id p)]

/-! ## Claim theorems -/

open KellyMultiplexer

/-- C1: with the registry holding `StratA = {mu 0.05, sigma 0.10}` and
`StratB = {mu 0.10, sigma 0.20}` and `kellyFraction = 0.3`, after StratA
records the portfolio `{AAPL: 1.0}` and StratB records `{AAPL: 1.0}`, the
recomputed aggregate assigns AAPL the weight `2.25`, StratA contributing with
scalar `0.3 * (0.05 / 0.10^2) = 1.5` and StratB with
`0.3 * (0.10 / 0.20^2) = 0.75`. -/
theorem C1_aggregation_example :
    kelly_scalar { kelly_fraction := 0.3 } { mu := 0.05, sigma := 0.10 } = 1.5
    ∧ kelly_scalar { kelly_fraction := 0.3 } { mu := 0.10, sigma := 0.20 } = 0.75
    ∧ weightOf
        (on_portfolio_received
          (on_portfolio_received
            { registry := [("StratA", { mu := 0.05, sigma := 0.10 }),
                           ("StratB", { mu := 0.10, sigma := 0.20 })],
              config := { kelly_fraction := 0.3 },
              client_portfolios := [] }
            { multiplexer_id := "StratA",
              target_weights :=
                [({ type := "Stock", symbol := "AAPL", exchange := "NASDAQ" }, 1.0)] }).1
          { multiplexer_id := "StratB",
            target_weights :=
              [({ type := "Stock", symbol := "AAPL", exchange := "NASDAQ" }, 1.0)] }).2.target_weights
        { type := "Stock", symbol := "AAPL", exchange := "NASDAQ" }
      = 2.25 := by
  refine ⟨by norm_num [kelly_scalar, raw_kelly], by norm_num [kelly_scalar, raw_kelly], ?_⟩
  norm_num [on_portfolio_received, recalculate_and_publish, recalc_step, scale_weights,
    kelly_scalar, raw_kelly, default_params, upsertA, lookupA, addWeight, weightOf]

/-- C3: for `mu = 10.0`, `sigma = 0.01`, `kellyFraction = 1.0` the per-client
scalar computed during recompute is exactly `2.0` (upper clamp); for
`mu = -10.0` it is exactly `-2.0`; and in general the scalar always lies in
`[-2.0, 2.0]`. -/
theorem C3_scalar_clamp :
    (∀ (config : MultiplexerConfig) (params : StrategyParams),
        -2 ≤ kelly_scalar config params ∧ kelly_scalar config params ≤ 2)
    ∧ kelly_scalar { kelly_fraction := 1.0 } { mu := 10.0, sigma := 0.01 } = 2.0
    ∧ kelly_scalar { kelly_fraction := 1.0 } { mu := -10.0, sigma := 0.01 } = -2.0 :=
  ⟨kelly_scalar_le,
   by norm_num [kelly_scalar, raw_kelly],
   by norm_num [kelly_scalar, raw_kelly]⟩

/-- C4: for a client whose registered volatility satisfies `sigma ≤ 1e-6`
(including zero and negative volatility), the division guard is taken, the raw
Kelly fraction is `0`, the scalar is `0`, and that client's contribution to
every instrument of the running aggregate is exactly `0.0` regardless of `mu`
(the aggregate's weight for every instrument is unchanged by that client's
loop iteration). -/
theorem C4_zero_volatility_guard :
    ∀ (config : MultiplexerConfig) (params : StrategyParams),
      params.sigma ≤ 1e-6 →
      raw_kelly params = 0 ∧
      kelly_scalar config params = 0 ∧
      ∀ (registry : List (String × StrategyParams)) (agg : List (Instrument × ℚ))
        (cid : String) (pf : TargetPortfolio) (inst : Instrument),
        lookupA registry cid = some params →
        weightOf (recalc_step config (registry, agg) (cid, pf)).2 inst = weightOf agg inst := by
  intro config params h
  refine ⟨raw_kelly_eq_zero params h, kelly_scalar_eq_zero config params h, ?_⟩
  intro registry agg cid pf inst hreg
  rw [recalc_step_snd]
  have hp : paramsOf (registry, agg).1 (cid, pf).1 = params := by
    simp [paramsOf, hreg]
  rw [hp, kelly_scalar_eq_zero config params h, weightOf_scale_weights_zero]

/-- Witness for C4 at `sigma = 0`, `mu = 7`. -/
theorem C4_zero_volatility_guard_witness :
    raw_kelly { mu := 7, sigma := 0 } = 0 ∧
    kelly_scalar { kelly_fraction := 0.3 } { mu := 7, sigma := 0 } = 0 ∧
    weightOf
      (recalc_step { kelly_fraction := 0.3 } ([("X", { mu := 7, sigma := 0 })], [])
        ("X", { multiplexer_id := "X",
                target_weights :=
                  [({ type := "Stock", symbol := "AAPL", exchange := "NASDAQ" }, 1)] })).2
      { type := "Stock", symbol := "AAPL", exchange := "NASDAQ" }
      = weightOf [] { type := "Stock", symbol := "AAPL", exchange := "NASDAQ" } := by
  have h := C4_zero_volatility_guard { kelly_fraction := 0.3 } { mu := 7, sigma := 0 }
    (by norm_num)
  exact ⟨h.1, h.2.1,
    h.2.2 [("X", { mu := 7, sigma := 0 })] [] "X"
      { multiplexer_id := "X",
        target_weights := [({ type := "Stock", symbol := "AAPL", exchange := "NASDAQ" }, 1)] }
      { type := "Stock", symbol := "AAPL", exchange := "NASDAQ" }
      (by simp [lookupA])⟩

/-- C5: after `remove_client id`, the id is absent from both the client
registry and the portfolio store (so a subsequent recompute, which folds over
the store only, includes no contribution from `id` even if its last portfolio
was never withdrawn), while every other client's entry in both stores and the
configuration are unchanged. -/
theorem C5_remove_client_purges_both_stores :
    ∀ (m : KellyMultiplexer) (id : String),
      lookupA (remove_client m id).registry id = none ∧
      lookupA (remove_client m id).client_portfolios id = none ∧
      (∀ c, c ≠ id →
        lookupA (remove_client m id).registry c = lookupA m.registry c ∧
        lookupA (remove_client m id).client_portfolios c = lookupA m.client_portfolios c) ∧
      (remove_client m id).config = m.config := by
  intro m id
  refine ⟨?_, ?_, ?_, rfl⟩
  · simp [remove_client, lookupA_eraseA_self]
  · simp [remove_client, lookupA_eraseA_self]
  · intro c hc
    exact ⟨by simp [remove_client, lookupA_eraseA_ne _ _ _ hc],
           by simp [remove_client, lookupA_eraseA_ne _ _ _ hc]⟩

/-- Witness for C5: removing `X` empties both of its entries and leaves
`Y` untouched. -/
theorem C5_remove_client_purges_both_stores_witness :
    lookupA (remove_client
      { registry := [("X", { mu := 1, sigma := 1 }), ("Y", { mu := 2, sigma := 2 })],
        config := { kelly_fraction := 0.3 },
        client_portfolios := [("X", { multiplexer_id := "X", target_weights := [] })] }
      "X").registry "X" = none ∧
    lookupA (remove_client
      { registry := [("X", { mu := 1, sigma := 1 }), ("Y", { mu := 2, sigma := 2 })],
        config := { kelly_fraction := 0.3 },
        client_portfolios := [("X", { multiplexer_id := "X", target_weights := [] })] }
      "X").registry "Y"
      = lookupA [("X", { mu := 1, sigma := 1 }), ("Y", { mu := 2, sigma := 2 })] "Y" := by
  refine ⟨(C5_remove_client_purges_both_stores _ "X").1,
    ((C5_remove_client_purges_both_stores
      { registry := [("X", { mu := 1, sigma := 1 }), ("Y", { mu := 2, sigma := 2 })],
        config := { kelly_fraction := 0.3 },
        client_portfolios := [("X", { multiplexer_id := "X", target_weights := [] })] }
      "X").2.2.1 "Y" ?_).1⟩
  decide

/-- C8: `add_client id mu sigma` accepts arbitrary `mu` and `sigma` (no range
validation; the witness uses a negative volatility), replaces exactly the
registry entry for `id`, and leaves every other registry entry, the portfolio
store and the `kelly_fraction` configuration unchanged.  In the embedding
`add_client` returns only the new state: the C++ method is `void`, performs no
recompute and calls no publisher. -/
theorem C8_add_client_frame :
    ∀ (m : KellyMultiplexer) (id : String) (mu sigma : ℚ),
      lookupA (add_client m id mu sigma).registry id = some { mu := mu, sigma := sigma } ∧
      (∀ c, c ≠ id → lookupA (add_client m id mu sigma).registry c = lookupA m.registry c) ∧
      (add_client m id mu sigma).client_portfolios = m.client_portfolios ∧
      (add_client m id mu sigma).config = m.config := by
  intro m id mu sigma
  refine ⟨?_, ?_, rfl, rfl⟩
  · simp [add_client, lookupA_upsertA_self]
  · intro c hc
    simp [add_client, lookupA_upsertA_ne _ _ _ _ hc]

/-- Witness for C8 with a negative volatility, showing the other client `B`
is untouched. -/
theorem C8_add_client_frame_witness :
    lookupA (add_client
      { registry := [("B", { mu := 2, sigma := 2 })],
        config := { kelly_fraction := 0.3 }, client_portfolios := [] }
      "A" 1 (-1)).registry "A" = some { mu := 1, sigma := -1 } ∧
    lookupA (add_client
      { registry := [("B", { mu := 2, sigma := 2 })],
        config := { kelly_fraction := 0.3 }, client_portfolios := [] }
      "A" 1 (-1)).registry "B" = lookupA [("B", { mu := 2, sigma := 2 })] "B" := by
  refine ⟨(C8_add_client_frame _ "A" 1 (-1)).1,
    ((C8_add_client_frame
      { registry := [("B", { mu := 2, sigma := 2 })],
        config := { kelly_fraction := 0.3 }, client_portfolios := [] }
      "A" 1 (-1)).2.1 "B" ?_)⟩
  decide

/-- C9: `add_client` is idempotent: applying it twice with the same id and
parameters yields the same engine state (hence the same registry) as applying
it once. -/
theorem C9_add_client_idempotent :
    ∀ (m : KellyMultiplexer) (id : String) (mu sigma : ℚ),
      add_client (add_client m id mu sigma) id mu sigma = add_client m id mu sigma := by
  intro m id mu sigma
  simp [add_client, upsertA_idem]

/-- C6: `on_portfolio_received` is total in the embedding (a Lean function
always returns a defined aggregate), and concretely the very first message of
a brand-new client `C1` with an empty weight map yields a defined aggregate
(with the sentinel id and no weights) while auto-registering the client; the
recompute returns the empty-identifier/no-weights aggregate exactly when the
portfolio store is empty at recompute time (the bootstrap case — never after
`on_portfolio_received`'s own write). -/
theorem C6_total_and_empty_bootstrap :
    (∀ m : KellyMultiplexer,
        (recalculate_and_publish m).2 = { multiplexer_id := "", target_weights := [] }
          ↔ m.client_portfolios = []) ∧
    on_portfolio_received
        { registry := [], config := { kelly_fraction := 0.3 }, client_portfolios := [] }
        { multiplexer_id := "C1", target_weights := [] }
      = ({ registry := [("C1", default_params)],
           config := { kelly_fraction := 0.3 },
           client_portfolios := [("C1", { multiplexer_id := "C1", target_weights := [] })] },
         { multiplexer_id := "KellyMux_Aggregated", target_weights := [] }) := by
  constructor
  · intro m
    constructor
    · intro h
      by_contra hne
      have hid : (recalculate_and_publish m).2.multiplexer_id = "KellyMux_Aggregated" := by
        simp only [recalculate_and_publish]
        rw [if_neg hne]
      rw [h] at hid
      exact absurd hid (by decide)
    · intro h
      simp [recalculate_and_publish, h]
  · norm_num [on_portfolio_received, recalculate_and_publish, recalc_step, scale_weights,
      upsertA, lookupA]

/-- Witness for C6: the empty-store bootstrap returns the empty-identifier,
no-weights aggregate. -/
theorem C6_total_and_empty_bootstrap_witness :
    (recalculate_and_publish
      { registry := [], config := { kelly_fraction := 0.3 }, client_portfolios := [] }).2
      = { multiplexer_id := "", target_weights := [] } :=
  (C6_total_and_empty_bootstrap.1 _).mpr rfl

/-- C2: for a client id that is in the portfolio store but absent from the
registry at recompute time, the recompute synthesizes `{mu 0.05, sigma 0.20}`
and durably writes it into the registry, and a second identical update from
that client leaves the engine state unchanged and returns the identical
aggregate — in particular the client's two scalar contributions coincide. -/
theorem C2_auto_registration_durable :
    ∀ (m : KellyMultiplexer) (p : TargetPortfolio),
      lookupA m.registry p.multiplexer_id = none →
      lookupA (on_portfolio_received m p).1.registry p.multiplexer_id
          = some { mu := 0.05, sigma := 0.20 } ∧
      on_portfolio_received (on_portfolio_received m p).1 p = on_portfolio_received m p := by
  intro m p h
  constructor
  · rw [on_portfolio_received_eq]
    show lookupA ((upsertA m.client_portfolios p.multiplexer_id p).foldl
        (recalc_step m.config) (m.registry, [])).1 p.multiplexer_id
      = some { mu := 0.05, sigma := 0.20 }
    obtain ⟨v, hv⟩ := Option.ne_none_iff_exists.mp
      (lookupA_recalc_fold_of_mem m.config _ (m.registry, []) p.multiplexer_id
        (mem_keys_upsertA m.client_portfolios p.multiplexer_id p))
    have hp : (lookupA ((upsertA m.client_portfolios p.multiplexer_id p).foldl
        (recalc_step m.config) (m.registry, [])).1 p.multiplexer_id).getD default_params
        = default_params := by
      have hq := paramsOf_recalc_fold m.config
        (upsertA m.client_portfolios p.multiplexer_id p) (m.registry, []) p.multiplexer_id
      simp only [paramsOf] at hq
      rw [hq]
      simp [h]
    rw [← hv] at hp
    simp only [Option.getD_some] at hp
    rw [← hv, hp]
    rfl
  · have hps : upsertA (upsertA m.client_portfolios p.multiplexer_id p) p.multiplexer_id p
        = upsertA m.client_portfolios p.multiplexer_id p :=
      upsertA_eq_self _ _ _ (lookupA_upsertA_self _ _ _)
    have hcov : ∀ e ∈ upsertA m.client_portfolios p.multiplexer_id p,
        lookupA ((upsertA m.client_portfolios p.multiplexer_id p).foldl
          (recalc_step m.config) (m.registry, [])).1 e.1 ≠ none :=
      fun e he => lookupA_recalc_fold_of_mem m.config _ (m.registry, []) e.1
        (List.mem_map_of_mem Prod.fst he)
    have hparams : ∀ c,
        paramsOf ((upsertA m.client_portfolios p.multiplexer_id p).foldl
          (recalc_step m.config) (m.registry, [])).1 c = paramsOf m.registry c :=
      fun c => paramsOf_recalc_fold m.config _ (m.registry, []) c
    rw [on_portfolio_received_eq m p, on_portfolio_received_eq]
    dsimp only
    rw [hps]
    rw [recalc_fold_registry_eq m.config (upsertA m.client_portfolios p.multiplexer_id p)
      (((upsertA m.client_portfolios p.multiplexer_id p).foldl
          (recalc_step m.config) (m.registry, [])).1, []) hcov]
    rw [recalc_fold_agg_congr m.config (upsertA m.client_portfolios p.multiplexer_id p)
      (((upsertA m.client_portfolios p.multiplexer_id p).foldl
          (recalc_step m.config) (m.registry, [])).1, [])
      (m.registry, []) hparams rfl]

/-- Witness for C2: a brand-new client `N` on an empty engine. -/
theorem C2_auto_registration_durable_witness :
    lookupA (on_portfolio_received
      { registry := [], config := { kelly_fraction := 0.3 }, client_portfolios := [] }
      { multiplexer_id := "N", target_weights := [] }).1.registry "N"
      = some { mu := 0.05, sigma := 0.20 } ∧
    on_portfolio_received
      (on_portfolio_received
        { registry := [], config := { kelly_fraction := 0.3 }, client_portfolios := [] }
        { multiplexer_id := "N", target_weights := [] }).1
      { multiplexer_id := "N", target_weights := [] }
      = on_portfolio_received
        { registry := [], config := { kelly_fraction := 0.3 }, client_portfolios := [] }
        { multiplexer_id := "N", target_weights := [] } :=
  C2_auto_registration_durable
    { registry := [], config := { kelly_fraction := 0.3 }, client_portfolios := [] }
    { multiplexer_id := "N", target_weights := [] }
    (by simp [lookupA])

/-- C10: every public operation preserves (and `on_portfolio_received`
establishes unconditionally, via auto-registration inside the same locked
recompute) the invariant that every client id with an entry in the portfolio
store also has an entry in the client registry; the invariant holds of any
start state with an empty store. -/
theorem C10_store_ids_registered :
    ∀ (m : KellyMultiplexer) (p : TargetPortfolio) (id : String) (mu sigma : ℚ)
      (registry : List (String × StrategyParams)) (config : MultiplexerConfig),
      RegistryCovers { registry := registry, config := config, client_portfolios := [] } ∧
      RegistryCovers (on_portfolio_received m p).1 ∧
      (RegistryCovers m → RegistryCovers (add_client m id mu sigma)) ∧
      (RegistryCovers m → RegistryCovers (remove_client m id)) := by
  intro m p id mu sigma registry config
  refine ⟨?_, ?_, ?_, ?_⟩
  · intro c hc
    simp [lookupA] at hc
  · rw [on_portfolio_received_eq]
    intro c hc
    exact lookupA_recalc_fold_of_mem m.config _ (m.registry, []) c
      ((lookupA_ne_none_iff_mem _ c).mp hc)
  · intro hm c hc
    have hr := hm c hc
    by_cases hcid : c = id
    · rw [add_client, hcid]
      dsimp only
      rw [lookupA_upsertA_self]
      exact Option.noConfusion
    · rw [add_client]
      dsimp only
      rw [lookupA_upsertA_ne _ _ _ _ hcid]
      exact hr
  · intro hm c hc
    rw [remove_client] at hc ⊢
    dsimp only at hc ⊢
    by_cases hcid : c = id
    · rw [hcid, lookupA_eraseA_self] at hc
      exact absurd rfl hc
    · rw [lookupA_eraseA_ne _ _ _ hcid] at hc
      rw [lookupA_eraseA_ne _ _ _ hcid]
      exact hm c hc

/-- Witness for C10: the invariant holds after a first update and is kept by
`add_client` on an empty engine. -/
theorem C10_store_ids_registered_witness :
    RegistryCovers (on_portfolio_received
      { registry := [], config := { kelly_fraction := 0.3 }, client_portfolios := [] }
      { multiplexer_id := "N", target_weights := [] }).1 ∧
    RegistryCovers (add_client
      { registry := [], config := { kelly_fraction := 0.3 }, client_portfolios := [] }
      "A" 1 1) := by
  have h := C10_store_ids_registered
    { registry := [], config := { kelly_fraction := 0.3 }, client_portfolios := [] }
    { multiplexer_id := "N", target_weights := [] } "A" 1 1 [] { kelly_fraction := 0.3 }
  exact ⟨h.2.1, h.2.2.1 (fun c hc => by simp [lookupA] at hc)⟩

/-- C7 (amended): an admin command whose name is not `ADD`, `UPDATE` or
`REMOVE` yields the fixed error acknowledgment `Unknown command` (which does
not include the offending command name); a recognized command missing a
required field (`id`, `mu` or `sigma`, checked in the C++ extraction order)
yields an error acknowledgment naming the missing key; in every such case the
engine state is returned unchanged — no registry or portfolio-store mutation,
no crash, no partial mutation. -/
theorem C7_admin_error_handling :
    ∀ (m : KellyMultiplexer) (req : AdminRequest),
      (¬(req.cmdField.getD "" = "ADD" ∨ req.cmdField.getD "" = "UPDATE"
          ∨ req.cmdField.getD "" = "REMOVE") →
        handle_admin m req = (m, .error "Unknown command")) ∧
      ((req.cmdField.getD "" = "ADD" ∨ req.cmdField.getD "" = "UPDATE") →
        (req.idField = none →
          handle_admin m req = (m, .error (missing_key_msg "id"))) ∧
        (∀ i, req.idField = some i → req.muField = none →
          handle_admin m req = (m, .error (missing_key_msg "mu"))) ∧
        (∀ i mu, req.idField = some i → req.muField = some mu → req.sigmaField = none →
          handle_admin m req = (m, .error (missing_key_msg "sigma")))) ∧
      (req.cmdField.getD "" = "REMOVE" → req.idField = none →
        handle_admin m req = (m, .error (missing_key_msg "id"))) := by
  intro m req
  refine ⟨?_, ?_, ?_⟩
  · intro hcmd
    push_neg at hcmd
    simp [handle_admin, hcmd.1, hcmd.2.1, hcmd.2.2]
  · intro hor
    refine ⟨?_, ?_, ?_⟩
    · intro hid
      simp [handle_admin, hor, hid]
    · intro i hi hmu
      simp [handle_admin, hor, hi, hmu]
    · intro i mu hi hmu hsigma
      simp [handle_admin, hor, hi, hmu, hsigma]
  · intro hrem hid
    have hnadd : ¬(req.cmdField.getD "" = "ADD" ∨ req.cmdField.getD "" = "UPDATE") := by
      rw [hrem]
      decide
    simp [handle_admin, hnadd, hrem, hid]

/-- Witness for C7 (amended): each error path at a concrete request, on a
small concrete engine state. -/
theorem C7_admin_error_handling_witness :
    handle_admin
      { registry := [], config := { kelly_fraction := 1 }, client_portfolios := [] }
      { cmdField := some "FOO", idField := none, muField := none, sigmaField := none }
      = ({ registry := [], config := { kelly_fraction := 1 }, client_portfolios := [] },
         .error "Unknown command") ∧
    handle_admin
      { registry := [], config := { kelly_fraction := 1 }, client_portfolios := [] }
      { cmdField := some "ADD", idField := none, muField := none, sigmaField := none }
      = ({ registry := [], config := { kelly_fraction := 1 }, client_portfolios := [] },
         .error (missing_key_msg "id")) ∧
    handle_admin
      { registry := [], config := { kelly_fraction := 1 }, client_portfolios := [] }
      { cmdField := some "UPDATE", idField := some "X", muField := none, sigmaField := none }
      = ({ registry := [], config := { kelly_fraction := 1 }, client_portfolios := [] },
         .error (missing_key_msg "mu")) ∧
    handle_admin
      { registry := [], config := { kelly_fraction := 1 }, client_portfolios := [] }
      { cmdField := some "UPDATE", idField := some "X", muField := some 1, sigmaField := none }
      = ({ registry := [], config := { kelly_fraction := 1 }, client_portfolios := [] },
         .error (missing_key_msg "sigma")) ∧
    handle_admin
      { registry := [], config := { kelly_fraction := 1 }, client_portfolios := [] }
      { cmdField := some "REMOVE", idField := none, muField := none, sigmaField := none }
      = ({ registry := [], config := { kelly_fraction := 1 }, client_portfolios := [] },
         .error (missing_key_msg "id")) := by
  refine ⟨(C7_admin_error_handling _ _).1 (by decide),
    ((C7_admin_error_handling _ _).2.1 (by decide)).1 rfl,
    ((C7_admin_error_handling _ _).2.1 (by decide)).2.1 "X" rfl rfl,
    ((C7_admin_error_handling _ _).2.1 (by decide)).2.2 "X" 1 rfl rfl rfl,
    (C7_admin_error_handling _ _).2.2 (by decide) rfl⟩

/-- C7 counterexample to the claim as stated: the error acknowledgment for an
unrecognized command is the fixed string `Unknown command`; it is identical
for the two distinct unknown commands `FOO` and `BAR`, and the name `FOO`
does not occur in its message — so the acknowledgment does not name the
unknown command. -/
theorem C7_unknown_command_not_named :
    (handle_admin
      { registry := [], config := { kelly_fraction := 1 }, client_portfolios := [] }
      { cmdField := some "FOO", idField := none, muField := none, sigmaField := none }).2
      = .error "Unknown command" ∧
    (handle_admin
      { registry := [], config := { kelly_fraction := 1 }, client_portfolios := [] }
      { cmdField := some "FOO", idField := none, muField := none, sigmaField := none }).2
      = (handle_admin
      { registry := [], config := { kelly_fraction := 1 }, client_portfolios := [] }
      { cmdField := some "BAR", idField := none, muField := none, sigmaField := none }).2 ∧
    charsContain "Unknown command".data "FOO".data = false := by
  refine ⟨?_, ?_, ?_⟩
  · simp [handle_admin]
  · simp [handle_admin]
  · decide
